import Mathlib

/-!
Shallow embedding of the snowbot trading core: the paper-trading ledger
(`src/trading/simulator.py`), the scoring engine (`src/data/evaluator.py`),
the KIS token manager and API call wrapper (`src/data/price_fetcher.py`),
and the orchestrator buy pass (`src/trading/auto_trader.py`).

Money amounts, quantities and prices are Python ints, embedded as `ℤ`.
Python float ratios (fee rates, score ratios, pivot arithmetic) are embedded
as exact rationals `ℚ`; Python `int(x)` (truncation toward zero) is `pyInt`.
-/

namespace Snowbot

/-- Python `int(x)` applied to an exact ratio: truncation toward zero. -/
def pyInt (q : ℚ) : ℤ := Int.tdiv q.num q.den

/-! ## Ledger (`SimulationEngine`, src/trading/simulator.py) -/

/-- The trading-related configuration fields consumed by the ledger
(`settings.trading` in src/config/settings.py). -/
structure TradingSettings where
  apply_fee : Bool
  fee_rate : ℚ
  tax_rate : ℚ
  initial_balance : ℤ

/-- `SimulationEngine.calculate_fee`: `int(amount * fee_rate)` when fee
application is enabled, else 0. -/
def calculate_fee (s : TradingSettings) (amount : ℤ) : ℤ :=
  if s.apply_fee then pyInt ((amount : ℚ) * s.fee_rate) else 0

/-- `SimulationEngine.calculate_tax`: gated on the same `apply_fee` flag as
the fee (as in the source), `int(amount * tax_rate)`. -/
def calculate_tax (s : TradingSettings) (amount : ℤ) : ℤ :=
  if s.apply_fee then pyInt ((amount : ℚ) * s.tax_rate) else 0

/-- A `VirtualHolding` row (one position). -/
structure VirtualHolding where
  item_cd : String
  item_nm : String
  qty : ℤ
  avg_price : ℤ
  current_price : ℤ
  eval_amt : ℤ
  profit : ℤ
  profit_rate : ℚ
  buy_date : String
deriving DecidableEq

/-- A `TradeHistory` row (append-only trade record). Simulator rows use
trade_type "B"/"S"; the orchestrator writes "buy"/"sell". -/
structure TradeHistoryRow where
  item_cd : String
  trade_date : String
  trade_type : String
  qty : ℤ
  price : ℤ
  fee : ℤ
  tax : ℤ
  profit : ℤ
  trade_source : String
deriving DecidableEq

/-- The ledger store: the balance of the single `VirtualAccount` row, the
`VirtualHolding` rows and the `TradeHistory` rows. -/
structure LedgerState where
  balance : ℤ
  holdings : List VirtualHolding
  history : List TradeHistoryRow
deriving DecidableEq

/-- `OrderResult` as returned by `SimulationEngine.buy` / `sell`. -/
structure OrderResult where
  success : Bool
  item_cd : String
  item_nm : String
  order_type : String
  qty : ℤ
  price : ℤ
  amount : ℤ
  fee : ℤ
  tax : ℤ
deriving DecidableEq

/-- Fresh account created by `_initialize_account` (or `reset_account`):
configured initial balance, no holdings, no history in scope. -/
def initialState (s : TradingSettings) : LedgerState :=
  ⟨s.initial_balance, [], []⟩

/-- `SimulationEngine.buy`. `fetch` stands for
`price_fetcher.get_current_price` (used only when `price0 = 0`), `names`
for the `ItemMst` name lookup, `today` for `date.today()`. Returns the
`OrderResult` together with the ledger store after the call.

The failure paths (fetch failure; insufficient balance) return before any
mutation. On the remaining path the source mutates the session (balance
debit, holding create/update with the truncated weighted average, and a
possible `ZeroDivisionError` when the merged quantity is 0) and then
constructs `TradeHistory(..., qty=qty, ...)` (simulator.py line 279) —
but the `TradeHistory` model declares the column `quantity`
(database.py line 140), so the declarative constructor raises `TypeError`
on every call that reaches it. `get_session` rolls the transaction back
(undoing all session mutations) and the outer handler returns the already
populated result with `success = False`. Hence every `buy` leaves the
persisted store unchanged and never reports success. -/
def buy (s : TradingSettings) (fetch : String → Option ℤ)
    (names : String → Option String) (today : String) (st : LedgerState)
    (item_cd : String) (qty price0 : ℤ) : OrderResult × LedgerState :=
  match (if price0 = 0 then fetch item_cd else some price0) with
  | none => (⟨false, item_cd, "", "B", 0, 0, 0, 0, 0⟩, st)
  | some price =>
    let amount := price * qty
    let fee := calculate_fee s amount
    let total_cost := amount + fee
    if st.balance < total_cost then
      (⟨false, item_cd, "", "B", qty, price, amount, fee, 0⟩, st)
    else
      let item_nm := (names item_cd).getD item_cd
      (⟨false, item_cd, item_nm, "B", qty, price, amount, fee, 0⟩, st)

/-- `SimulationEngine.sell`. `qty0 = 0` sells the entire position;
`price0 = 0` uses the fetched current price.

The precondition failures (no position; held quantity below requested;
fetch failure) return before any mutation. On the remaining path the
source credits the balance by `amount - fee - tax` and deletes or
decrements the holding row in the session, and then constructs
`TradeHistory(..., qty=qty, ...)` (simulator.py line 381) — the same
`qty` vs `quantity` column mismatch as in `buy` — so every call that
reaches it raises `TypeError`, the transaction is rolled back and the
populated result is returned with `success = False`. Hence every `sell`
leaves the persisted store unchanged and never reports success. -/
def sell (s : TradingSettings) (fetch : String → Option ℤ) (today : String)
    (st : LedgerState) (item_cd : String) (qty0 price0 : ℤ) :
    OrderResult × LedgerState :=
  match st.holdings.find? (fun h => h.item_cd == item_cd) with
  | none => (⟨false, item_cd, "", "S", 0, 0, 0, 0, 0⟩, st)
  | some h =>
    let qty := if qty0 = 0 then h.qty else qty0
    if h.qty < qty then
      (⟨false, item_cd, h.item_nm, "S", 0, 0, 0, 0, 0⟩, st)
    else
      match (if price0 = 0 then fetch item_cd else some price0) with
      | none => (⟨false, item_cd, h.item_nm, "S", 0, 0, 0, 0, 0⟩, st)
      | some price =>
        let amount := price * qty
        let fee := calculate_fee s amount
        let tax := calculate_tax s amount
        (⟨false, item_cd, h.item_nm, "S", qty, price, amount, fee, tax⟩, st)

/-- One ledger operation: a call to `SimulationEngine.buy` or `sell` with
explicit integer quantity and price arguments. -/
inductive LedgerOp where
  | buyOp (item_cd : String) (qty price : ℤ)
  | sellOp (item_cd : String) (qty price : ℤ)
deriving DecidableEq

/-- Apply one ledger operation to the store, keeping the resulting state. -/
def applyOp (s : TradingSettings) (fetch : String → Option ℤ)
    (names : String → Option String) (today : String) (st : LedgerState) :
    LedgerOp → LedgerState
  | .buyOp cd qty price => (buy s fetch names today st cd qty price).2
  | .sellOp cd qty price => (sell s fetch today st cd qty price).2

/-- Run a sequence of ledger buy/sell operations. -/
def runOps (s : TradingSettings) (fetch : String → Option ℤ)
    (names : String → Option String) (today : String) (st : LedgerState)
    (ops : List LedgerOp) : LedgerState :=
  ops.foldl (applyOp s fetch names today) st

/-- The ledger invariant from the spec: nonnegative cash, and every stored holding
row has positive quantity. -/
def LedgerInv (st : LedgerState) : Prop :=
  0 ≤ st.balance ∧ ∀ h ∈ st.holdings, 0 < h.qty

instance (st : LedgerState) : Decidable (LedgerInv st) :=
  inferInstanceAs (Decidable (0 ≤ st.balance ∧ ∀ h ∈ st.holdings, 0 < h.qty))

/-! ## Scoring engine (`Evaluator`, src/data/evaluator.py) -/

/-- `SwingData`: the normalized snapshot scored by the evaluator. Python
float fields are embedded as `ℚ`. -/
structure SwingData where
  item_cd : String
  item_nm : String
  stck_clpr : ℤ
  ma5 : ℤ
  ma20 : ℤ
  ma60 : ℤ
  ma120 : ℤ
  grs : ℚ
  bsop_prfi_inrt : ℚ
  roe_val : ℚ
  lblt_rate : ℚ
  thtr_ntin : ℤ
  rsrv_rate : ℚ
  frgn_ntby_qty : ℤ
  pgtr_ntby_qty : ℤ
  hts_avls : ℤ
  per : ℚ
  pbr : ℚ
  high_rate : ℚ
  low_rate : ℚ
  frgn_rate : ℚ

/-- `EvaluationScore`: the eight sub-scores, their total and the safety-net
verdict. -/
structure EvaluationScore where
  item_cd : String
  item_nm : String
  total_score : ℤ
  sheet_score : ℤ
  trend_score : ℤ
  price_score : ℤ
  kpi_score : ℤ
  buy_score : ℤ
  avls_score : ℤ
  per_score : ℤ
  pbr_score : ℤ
  is_buy_candidate : Bool

/-- `Evaluator._cal_sheet_score` (fundamentals, 5 one-point checks). -/
def cal_sheet_score (d : SwingData) : ℤ :=
  (if 0 < d.grs then 1 else 0) + (if 0 < d.bsop_prfi_inrt then 1 else 0) +
    (if 5 < d.roe_val then 1 else 0) + (if d.lblt_rate < 200 then 1 else 0) +
    (if 0 < d.thtr_ntin then 1 else 0)

/-- `Evaluator._cal_trend_score` (momentum, capped at 5). -/
def cal_trend_score (d : SwingData) : ℤ :=
  min 5
    ((if -10 < d.high_rate then 2 else if -20 < d.high_rate then 1 else 0) +
      (if 10 < d.low_rate then 2 else if 5 < d.low_rate then 1 else 0) +
      (if 10 < d.frgn_rate then 1 else 0))

/-- `Evaluator._cal_price_score` (price trend; 0 when MA5 or MA20 is 0). -/
def cal_price_score (d : SwingData) : ℤ :=
  if d.ma5 = 0 ∨ d.ma20 = 0 then 0
  else
    (if d.ma5 ≤ d.stck_clpr then 1 else 0) +
      (if d.ma20 ≤ d.stck_clpr then 1 else 0) +
      (if d.ma20 ≤ d.ma5 then 1 else 0) + (if d.ma60 ≤ d.ma20 then 1 else 0) +
      (if d.ma120 ≤ d.ma60 then 1 else 0)

/-- `Evaluator._cal_kpi_score` (MA20 disparity, base 2, clamped to [0,5]). -/
def cal_kpi_score (d : SwingData) : ℤ :=
  let point : ℤ := 2 +
    (if 0 < d.ma20 then
      (let disparity : ℚ := (d.stck_clpr : ℚ) / (d.ma20 : ℚ) * 100
       if 98 ≤ disparity ∧ disparity ≤ 110 then 2
       else if 115 < disparity then -1 else 0)
     else 0)
  min 5 (max 0 point)

/-- `Evaluator._cal_buy_score` (supply/demand, capped at 5). -/
def cal_buy_score (d : SwingData) : ℤ :=
  min 5
    ((if 0 < d.frgn_ntby_qty then 2 else 0) +
      (if 0 < d.pgtr_ntby_qty then 3 else 0))

/-- `Evaluator._cal_avls_score` (market-cap bands; the large-cap band
intentionally scores 4, below the 5 of the mid band). -/
def cal_avls_score (d : SwingData) : ℤ :=
  let mkt_cap_bil : ℚ := (d.hts_avls : ℚ) / 100000000
  if mkt_cap_bil < 500 then 1 else if 10000 < mkt_cap_bil then 4 else 5

/-- `Evaluator._cal_per_score`. -/
def cal_per_score (d : SwingData) : ℤ :=
  if d.per ≤ 0 then 0
  else if d.per < 10 then 5
  else if d.per < 15 then 4
  else if d.per < 20 then 3
  else if d.per < 50 then 2
  else 1

/-- `Evaluator._cal_pbr_score`. -/
def cal_pbr_score (d : SwingData) : ℤ :=
  if d.pbr ≤ 0 then 0
  else if d.pbr < 1 then 5
  else if d.pbr < 3/2 then 4
  else if d.pbr < 3 then 3
  else 2

/-- `Evaluator._check_safety_net`; `min_cutline` is the configured minimum
total score, re-read on every call. -/
def check_safety_net (min_cutline : ℤ) (d : SwingData) (total_score : ℤ) : Bool :=
  if d.thtr_ntin < 0 then false
  else if 400 < d.lblt_rate then false
  else if total_score < min_cutline then false
  else true

/-- `Evaluator.evaluate`: the eight sub-scores, their sum, and the verdict. -/
def evaluate (min_cutline : ℤ) (d : SwingData) : EvaluationScore :=
  let sheet := cal_sheet_score d
  let trend := cal_trend_score d
  let price := cal_price_score d
  let kpi := cal_kpi_score d
  let buyS := cal_buy_score d
  let avls := cal_avls_score d
  let perS := cal_per_score d
  let pbrS := cal_pbr_score d
  let total := sheet + trend + price + kpi + buyS + avls + perS + pbrS
  ⟨d.item_cd, d.item_nm, total, sheet, trend, price, kpi, buyS, avls, perS,
    pbrS, check_safety_net min_cutline d total⟩

/-! ## Token manager (`KISTokenManager`, src/data/price_fetcher.py) -/

/-- Per-profile persisted token state (`_tokens[mode]`). Timestamps and
dates are abstract naturals. -/
structure TokenState where
  access_token : Option String
  token_expires : Option ℕ
  issue_count : ℤ
  issue_date : Option ℕ
deriving DecidableEq

/-- Python truthiness of the stored token string (empty string is falsy). -/
def tokenTruthy : Option String → Bool
  | none => false
  | some s => !s.isEmpty

/-- The cached-token fast path guard of `get_token`: a truthy token whose
stored expiry is set and still in the future. -/
def hasValidToken (st : TokenState) (now : ℕ) : Bool :=
  match st.token_expires with
  | none => false
  | some e => tokenTruthy st.access_token && decide (now < e)

/-- Seconds in the deliberately shortened 23-hour token lifetime. -/
def tokenLifetime : ℕ := 23 * 3600

/-- `KISTokenManager.get_token` for one profile. `issue` is what the OAuth
endpoint would return (`none` for any failure). The result is the returned
token, the updated state, and the number of network issuance requests
performed. -/
def getToken (st : TokenState) (now today : ℕ) (issue : Option String) :
    Option String × TokenState × ℕ :=
  if hasValidToken st now then (st.access_token, st, 0)
  else
    let st1 := if st.issue_date ≠ some today then
        { st with issue_count := 0, issue_date := some today }
      else st
    if 5 ≤ st1.issue_count then (none, st1, 0)
    else
      match issue with
      | none => (none, st1, 1)
      | some t =>
        if t.isEmpty then (none, st1, 1)
        else
          (some t,
           { st1 with
             access_token := some t,
             token_expires := some (now + tokenLifetime),
             issue_count := st1.issue_count + 1,
             issue_date := some today }, 1)

/-! ## API call wrapper (`KISAPIFetcher._call_api`, src/data/price_fetcher.py) -/

/-- Environment outcome of one attempt of the `_call_api` loop: the headers
could not be built (no token), the HTTP request raised, or a response came
back with an HTTP status and a parsed body. The body is `none` when it is
not machine-readable, else `some msg_cd` (the structured code of the broker,
`""` when the field is absent). -/
inductive ApiAttempt where
  | noToken
  | failedRequest
  | response (status : ℕ) (body : Option String)
deriving DecidableEq

/-- The rate-limit code check (`EGW00201`). -/
def isRateLimitBody : Option String → Bool
  | some m => m == "EGW00201"
  | none => false

/-- The token-expired/invalid code check (`EGW00123` / `EGW00121`). -/
def isTokenErrBody : Option String → Bool
  | some m => m == "EGW00123" || m == "EGW00121"
  | none => false

/-- Result of one loop iteration: return a value having made `reqs` HTTP
requests, or retry for one of the two structured-error reasons. -/
inductive CallStep where
  | ret (v : Option String) (reqs : ℕ)
  | retryRate
  | retryToken
deriving DecidableEq

/-- One iteration of the `_call_api` loop body. -/
def callStep : ApiAttempt → CallStep
  | .noToken => .ret none 0
  | .failedRequest => .ret none 1
  | .response status body =>
    if isRateLimitBody body then .retryRate
    else if isTokenErrBody body then .retryToken
    else if status == 200 then .ret body 1
    else .ret none 1

/-- Observable outcome of one `_call_api` invocation: the returned parsed
body (abstracted to its `msg_cd`), the number of HTTP request attempts, the
number of rate-limit sleeps and the number of token invalidations. -/
structure CallResult where
  retval : Option String
  requests : ℕ
  sleeps : ℕ
  invalidations : ℕ
deriving DecidableEq

/-- `_call_api`, whose `for attempt in range(2)` loop is unrolled over the
two per-attempt environment outcomes. -/
def callApi (a1 a2 : ApiAttempt) : CallResult :=
  match callStep a1 with
  | .ret v n => ⟨v, n, 0, 0⟩
  | .retryRate =>
    match callStep a2 with
    | .ret v n => ⟨v, 1 + n, 1, 0⟩
    | .retryRate => ⟨none, 2, 2, 0⟩
    | .retryToken => ⟨none, 2, 1, 1⟩
  | .retryToken =>
    match callStep a2 with
    | .ret v n => ⟨v, 1 + n, 0, 1⟩
    | .retryRate => ⟨none, 2, 1, 1⟩
    | .retryToken => ⟨none, 2, 0, 2⟩

/-! ## Orchestrator buy pass (`AutoTrader._process_buying`,
src/trading/auto_trader.py) -/

/-- An `EvaluationResult` row as read by the candidate query. -/
structure EvalRow where
  item_cd : String
  item_nm : String
  base_date : String
  total_score : ℤ
  is_buy_candidate : Bool
deriving DecidableEq

/-- The configuration fields the buy pass reads. -/
structure BuyConfig where
  limit_count : ℤ
  max_buy_amount : ℤ
  buy_rate : ℚ
  min_total_score : ℤ

/-- Per-symbol environment of the buy pass: live quote, prior-session OHLC
row (high, low, close), and whether the broker accepts the order. -/
structure BuyEnv where
  price : String → Option ℤ
  prevCandle : String → Option (ℤ × ℤ × ℤ)
  orderOk : String → Bool

/-- Pivot point `PP = (H+L+C)/3`. -/
def pivotPP (high low close : ℤ) : ℚ := ((high + low + close : ℤ) : ℚ) / 3

/-- First support `S1 = 2*PP - H`. -/
def pivotS1 (high low close : ℤ) : ℚ := 2 * pivotPP high low close - (high : ℚ)

/-- Second support `S2 = PP - (H - L)`. -/
def pivotS2 (high low close : ℤ) : ℚ :=
  pivotPP high low close - ((high - low : ℤ) : ℚ)

/-- The support average `(S1 + S2) / 2` compared against the live price. -/
def pivotSupportAvg (high low close : ℤ) : ℚ :=
  (pivotS1 high low close + pivotS2 high low close) / 2

/-- Symbols with a buy-side trade-history row dated today, as collected by
the dedup query (trade_type equal to the string buy). -/
def todayBought (history : List TradeHistoryRow) (today : String) : List String :=
  (history.filter (fun r => r.trade_date == today && r.trade_type == "buy")).map
    (·.item_cd)

/-- The candidate query: the evaluation rows of today at or above the configured
minimum score and flagged as buy candidates, ordered by total score
descending, capped at 10 rows. -/
def candidateQuery (cfg : BuyConfig) (evalRows : List EvalRow) (today : String) :
    List EvalRow :=
  (List.insertionSort (fun a b => b.total_score ≤ a.total_score)
      (evalRows.filter (fun e =>
        e.base_date == today && decide (cfg.min_total_score ≤ e.total_score) &&
          e.is_buy_candidate))).take 10

/-- The candidate loop of `_process_buying`. Returns the symbols submitted
as buy orders (in order of submission) and the symbols whose order
succeeded. `bought` is the in-memory `today_bought_codes` set and
`buyCount` the number of fills so far. -/
def buyLoop (env : BuyEnv) (slots target : ℤ) :
    List EvalRow → List String → ℤ → List String × List String
  | [], _, _ => ([], [])
  | cand :: rest, bought, buyCount =>
    if slots ≤ buyCount then ([], [])
    else if bought.contains cand.item_cd then
      buyLoop env slots target rest bought buyCount
    else
      match env.price cand.item_cd with
      | none => buyLoop env slots target rest bought buyCount
      | some p =>
        if p = 0 then buyLoop env slots target rest bought buyCount
        else if p < 1000 then buyLoop env slots target rest bought buyCount
        else
          match env.prevCandle cand.item_cd with
          | none => buyLoop env slots target rest bought buyCount
          | some hlc =>
            if pivotSupportAvg hlc.1 hlc.2.1 hlc.2.2 < (p : ℚ) then
              buyLoop env slots target rest bought buyCount
            else
              let qty := Int.fdiv target p
              if qty ≤ 0 then buyLoop env slots target rest bought buyCount
              else if env.orderOk cand.item_cd then
                let r := buyLoop env slots target rest
                  (cand.item_cd :: bought) (buyCount + 1)
                (cand.item_cd :: r.1, cand.item_cd :: r.2)
              else
                let r := buyLoop env slots target rest bought buyCount
                (cand.item_cd :: r.1, r.2)

/-- `AutoTrader._process_buying`: slot check, per-trade budget, candidate
query with per-day dedup, then the candidate loop. Returns (submitted buy
orders, successful buys). -/
def processBuying (cfg : BuyConfig) (env : BuyEnv)
    (history : List TradeHistoryRow) (evalRows : List EvalRow) (today : String)
    (deposit holdingsCount : ℤ) : List String × List String :=
  if cfg.limit_count ≤ holdingsCount then ([], [])
  else
    let slots := cfg.limit_count - holdingsCount
    let target := min cfg.max_buy_amount (pyInt ((deposit : ℚ) * (cfg.buy_rate / 100)))
    if target < 10000 then ([], [])
    else
      buyLoop env slots target (candidateQuery cfg evalRows today)
        (todayBought history today) 0

/-- The same candidate loop of `_process_buying`, abstracted to the
sequence of `send_order` buy submissions it makes, each paired with
whether the broker accepted it (`res` success). `buyLoop` returns the two
projections of this trace (the submitted symbols and the successful
ones); the trace additionally records the order of outcomes, which is
needed to state that a symbol is never submitted again after a successful
buy. -/
def buyLoopTrace (env : BuyEnv) (slots target : ℤ) :
    List EvalRow → List String → ℤ → List (String × Bool)
  | [], _, _ => []
  | cand :: rest, bought, buyCount =>
    if slots ≤ buyCount then []
    else if bought.contains cand.item_cd then
      buyLoopTrace env slots target rest bought buyCount
    else
      match env.price cand.item_cd with
      | none => buyLoopTrace env slots target rest bought buyCount
      | some p =>
        if p = 0 then buyLoopTrace env slots target rest bought buyCount
        else if p < 1000 then buyLoopTrace env slots target rest bought buyCount
        else
          match env.prevCandle cand.item_cd with
          | none => buyLoopTrace env slots target rest bought buyCount
          | some hlc =>
            if pivotSupportAvg hlc.1 hlc.2.1 hlc.2.2 < (p : ℚ) then
              buyLoopTrace env slots target rest bought buyCount
            else
              let qty := Int.fdiv target p
              if qty ≤ 0 then buyLoopTrace env slots target rest bought buyCount
              else if env.orderOk cand.item_cd then
                (cand.item_cd, true) ::
                  buyLoopTrace env slots target rest (cand.item_cd :: bought)
                    (buyCount + 1)
              else
                (cand.item_cd, false) ::
                  buyLoopTrace env slots target rest bought buyCount

/-- `AutoTrader._process_buying` abstracted to its submission trace: the
buy orders it sends, in order, each with its success outcome. -/
def processBuyingTrace (cfg : BuyConfig) (env : BuyEnv)
    (history : List TradeHistoryRow) (evalRows : List EvalRow) (today : String)
    (deposit holdingsCount : ℤ) : List (String × Bool) :=
  if cfg.limit_count ≤ holdingsCount then []
  else
    let slots := cfg.limit_count - holdingsCount
    let target := min cfg.max_buy_amount (pyInt ((deposit : ℚ) * (cfg.buy_rate / 100)))
    if target < 10000 then []
    else
      buyLoopTrace env slots target (candidateQuery cfg evalRows today)
        (todayBought history today) 0

/-! ## Numeric helper lemmas -/

theorem pyInt_eq_floor (q : ℚ) (h : 0 ≤ q) : pyInt q = ⌊q⌋ := by
  rw [pyInt, Rat.floor_def,
    Int.tdiv_eq_ediv (Rat.num_nonneg.mpr h) (Int.natCast_nonneg _)]

/-! ## Claim C3: sub-score bounds and the total sum -/

theorem cal_sheet_score_bounds (d : SwingData) :
    0 ≤ cal_sheet_score d ∧ cal_sheet_score d ≤ 5 := by
  unfold cal_sheet_score; split_ifs <;> decide

theorem cal_trend_score_bounds (d : SwingData) :
    0 ≤ cal_trend_score d ∧ cal_trend_score d ≤ 5 := by
  unfold cal_trend_score
  refine ⟨le_min (by decide) ?_, min_le_left _ _⟩
  split_ifs <;> decide

theorem cal_price_score_bounds (d : SwingData) :
    0 ≤ cal_price_score d ∧ cal_price_score d ≤ 5 := by
  unfold cal_price_score; split_ifs <;> decide

theorem cal_kpi_score_bounds (d : SwingData) :
    0 ≤ cal_kpi_score d ∧ cal_kpi_score d ≤ 5 := by
  unfold cal_kpi_score
  exact ⟨le_min (by decide) (le_max_left _ _), min_le_left _ _⟩

theorem cal_buy_score_bounds (d : SwingData) :
    0 ≤ cal_buy_score d ∧ cal_buy_score d ≤ 5 := by
  unfold cal_buy_score
  refine ⟨le_min (by decide) ?_, min_le_left _ _⟩
  split_ifs <;> decide

theorem cal_avls_score_bounds (d : SwingData) :
    1 ≤ cal_avls_score d ∧ cal_avls_score d ≤ 5 := by
  unfold cal_avls_score; dsimp only; split_ifs <;> decide

theorem cal_per_score_bounds (d : SwingData) :
    0 ≤ cal_per_score d ∧ cal_per_score d ≤ 5 := by
  unfold cal_per_score; split_ifs <;> decide

theorem cal_pbr_score_bounds (d : SwingData) :
    0 ≤ cal_pbr_score d ∧ cal_pbr_score d ≤ 5 := by
  unfold cal_pbr_score; split_ifs <;> decide

/-- C3: for every snapshot, each of the eight sub-scores computed by
`Evaluator.evaluate` lies within its documented bound (fundamentals 0-5,
momentum 0-5, price trend 0-5, KPI 0-5, supply/demand 0-5, market cap 1-5,
P/E 0-5, P/B 0-5), and the total score is exactly the sum of the eight
sub-scores. -/
theorem evaluate_subscore_bounds_and_total_sum (m : ℤ) (d : SwingData) :
    (0 ≤ (evaluate m d).sheet_score ∧ (evaluate m d).sheet_score ≤ 5) ∧
    (0 ≤ (evaluate m d).trend_score ∧ (evaluate m d).trend_score ≤ 5) ∧
    (0 ≤ (evaluate m d).price_score ∧ (evaluate m d).price_score ≤ 5) ∧
    (0 ≤ (evaluate m d).kpi_score ∧ (evaluate m d).kpi_score ≤ 5) ∧
    (0 ≤ (evaluate m d).buy_score ∧ (evaluate m d).buy_score ≤ 5) ∧
    (1 ≤ (evaluate m d).avls_score ∧ (evaluate m d).avls_score ≤ 5) ∧
    (0 ≤ (evaluate m d).per_score ∧ (evaluate m d).per_score ≤ 5) ∧
    (0 ≤ (evaluate m d).pbr_score ∧ (evaluate m d).pbr_score ≤ 5) ∧
    (evaluate m d).total_score =
      (evaluate m d).sheet_score + (evaluate m d).trend_score +
        (evaluate m d).price_score + (evaluate m d).kpi_score +
        (evaluate m d).buy_score + (evaluate m d).avls_score +
        (evaluate m d).per_score + (evaluate m d).pbr_score :=
  ⟨cal_sheet_score_bounds d, cal_trend_score_bounds d, cal_price_score_bounds d,
    cal_kpi_score_bounds d, cal_buy_score_bounds d, cal_avls_score_bounds d,
    cal_per_score_bounds d, cal_pbr_score_bounds d, rfl⟩

/-! ## Claim C4: daily issuance quota and counter reset -/

/-- C4: with `issue_date = today`, `issue_count >= 5` and no unexpired
cached token, `get_token` returns no token, changes nothing and performs no
network issuance request; and whenever `issue_date` differs from today the
counter is reset to 0 before the quota check, so an issuance request is
made (exactly one) and the stored date becomes today with the counter at
most 1. -/
theorem getToken_quota_and_daily_reset :
    (∀ (st : TokenState) (now today : ℕ) (issue : Option String),
      st.issue_date = some today → 5 ≤ st.issue_count →
      hasValidToken st now = false →
      getToken st now today issue = (none, st, 0)) ∧
    (∀ (st : TokenState) (now today : ℕ) (issue : Option String),
      st.issue_date ≠ some today → hasValidToken st now = false →
      (getToken st now today issue).2.2 = 1 ∧
        (getToken st now today issue).2.1.issue_date = some today ∧
        (getToken st now today issue).2.1.issue_count ≤ 1) := by
  constructor
  · intro st now today issue hd hc hv
    unfold getToken
    rw [hv]
    simp only [Bool.false_eq_true, if_false]
    rw [if_neg (show ¬ st.issue_date ≠ some today by simp [hd]),
      if_pos (show (5 : ℤ) ≤ st.issue_count from hc)]
  · intro st now today issue hd hv
    unfold getToken
    rw [hv]
    simp only [Bool.false_eq_true, if_false]
    rw [if_pos hd,
      if_neg (show ¬ (5 : ℤ) ≤
        ({ st with issue_count := 0, issue_date := some today } :
          TokenState).issue_count by simp)]
    rcases issue with _ | t
    · dsimp only
      exact ⟨rfl, rfl, by simp⟩
    · dsimp only
      by_cases he : t.isEmpty = true
      · rw [if_pos he]; exact ⟨rfl, rfl, by simp⟩
      · rw [if_neg he]; exact ⟨rfl, rfl, by simp⟩

/-- Witness for C4 at concrete token states: a state with count 5 issued
today and an expired cached token is rejected with zero network calls, and
a stale-dated state triggers exactly one issuance request. -/
theorem getToken_quota_and_daily_reset_witness :
    getToken ⟨some "tok", some 100, 5, some 42⟩ 200 42 (some "newtok") =
      (none, ⟨some "tok", some 100, 5, some 42⟩, 0) ∧
    (getToken ⟨none, none, 5, some 41⟩ 200 42 (some "newtok")).2.2 = 1 :=
  ⟨getToken_quota_and_daily_reset.1 ⟨some "tok", some 100, 5, some 42⟩ 200 42
      (some "newtok") rfl (by decide) (by decide),
    (getToken_quota_and_daily_reset.2 ⟨none, none, 5, some 41⟩ 200 42
        (some "newtok") (by decide) (by decide)).1⟩

/-! ## Claim C5: the two-attempt policy of the API call wrapper -/

theorem callStep_ret_reqs_le (a : ApiAttempt) (v : Option String) (n : ℕ)
    (h : callStep a = .ret v n) : n ≤ 1 := by
  cases a with
  | noToken => obtain ⟨-, h2⟩ := CallStep.ret.inj h; omega
  | failedRequest => obtain ⟨-, h2⟩ := CallStep.ret.inj h; omega
  | response status body =>
    simp only [callStep] at h
    split_ifs at h <;> first
      | (obtain ⟨-, h2⟩ := CallStep.ret.inj h; omega)
      | exact absurd h (by simp)

theorem callStep_retryRate_shape (a : ApiAttempt)
    (h : callStep a = .retryRate) :
    ∃ status body, a = .response status body ∧ isRateLimitBody body = true := by
  cases a with
  | noToken => exact absurd h (by simp [callStep])
  | failedRequest => exact absurd h (by simp [callStep])
  | response status body =>
    refine ⟨status, body, rfl, ?_⟩
    simp only [callStep] at h
    split_ifs at h with h1 h2 h3 <;> simp_all

theorem callStep_retryToken_shape (a : ApiAttempt)
    (h : callStep a = .retryToken) :
    ∃ status body, a = .response status body ∧ isTokenErrBody body = true := by
  cases a with
  | noToken => exact absurd h (by simp [callStep])
  | failedRequest => exact absurd h (by simp [callStep])
  | response status body =>
    refine ⟨status, body, rfl, ?_⟩
    simp only [callStep] at h
    split_ifs at h with h1 h2 h3 <;> simp_all

/-- C5: `_call_api` issues at most 2 HTTP request attempts; a second
attempt happens only when the structured code of the first response signals
rate limiting or token expiry/invalidity; a rate-limit first response is
followed by a sleep and a token-error first response by a token
invalidation; any other non-200 response, and any request exception, fails
immediately after a single attempt. -/
theorem callApi_two_attempt_policy :
    (∀ a1 a2, (callApi a1 a2).requests ≤ 2) ∧
    (∀ a1 a2, (callApi a1 a2).requests = 2 →
      ∃ status body, a1 = .response status body ∧
        (isRateLimitBody body = true ∨ isTokenErrBody body = true)) ∧
    (∀ status body a2, isRateLimitBody body = false →
      isTokenErrBody body = false → status ≠ 200 →
      callApi (.response status body) a2 = ⟨none, 1, 0, 0⟩) ∧
    (∀ a2, callApi .failedRequest a2 = ⟨none, 1, 0, 0⟩) ∧
    (∀ status body a2, isRateLimitBody body = true →
      1 ≤ (callApi (.response status body) a2).sleeps) ∧
    (∀ status body a2, isTokenErrBody body = true →
      1 ≤ (callApi (.response status body) a2).invalidations) := by
  refine ⟨?_, ?_, ?_, ?_, ?_, ?_⟩
  · intro a1 a2
    cases h1 : callStep a1 with
    | ret v n =>
      have := callStep_ret_reqs_le a1 v n h1
      simp [callApi, h1]
      omega
    | retryRate =>
      cases h2 : callStep a2 with
      | ret w m =>
        have := callStep_ret_reqs_le a2 w m h2
        simp [callApi, h1, h2]
        omega
      | retryRate => simp [callApi, h1, h2]
      | retryToken => simp [callApi, h1, h2]
    | retryToken =>
      cases h2 : callStep a2 with
      | ret w m =>
        have := callStep_ret_reqs_le a2 w m h2
        simp [callApi, h1, h2]
        omega
      | retryRate => simp [callApi, h1, h2]
      | retryToken => simp [callApi, h1, h2]
  · intro a1 a2 hreq
    cases h1 : callStep a1 with
    | ret v n =>
      have hle := callStep_ret_reqs_le a1 v n h1
      simp [callApi, h1] at hreq
      omega
    | retryRate =>
      obtain ⟨status, body, rfl, hb⟩ := callStep_retryRate_shape a1 h1
      exact ⟨status, body, rfl, Or.inl hb⟩
    | retryToken =>
      obtain ⟨status, body, rfl, hb⟩ := callStep_retryToken_shape a1 h1
      exact ⟨status, body, rfl, Or.inr hb⟩
  · intro status body a2 hr ht hs
    have h1 : callStep (.response status body) = .ret none 1 := by
      simp [callStep, hr, ht, hs]
    simp [callApi, h1]
  · intro a2
    simp [callApi, callStep]
  · intro status body a2 hr
    have h1 : callStep (.response status body) = .retryRate := by
      simp [callStep, hr]
    cases h2 : callStep a2 with
    | ret w m => simp [callApi, h1, h2]
    | retryRate => simp [callApi, h1, h2]
    | retryToken => simp [callApi, h1, h2]
  · intro status body a2 ht
    have hr : isRateLimitBody body = false := by
      cases body with
      | none => rfl
      | some m =>
        simp only [isTokenErrBody, Bool.or_eq_true, beq_iff_eq] at ht
        rcases ht with rfl | rfl <;> decide
    have h1 : callStep (.response status body) = .retryToken := by
      simp [callStep, hr, ht]
    cases h2 : callStep a2 with
    | ret w m => simp [callApi, h1, h2]
    | retryRate => simp [callApi, h1, h2]
    | retryToken => simp [callApi, h1, h2]

/-- Witness for C5 at concrete attempt outcomes: a rate-limited first
response followed by a clean 200 gives exactly 2 requests, and that pair
satisfies the second-attempt characterization; a plain 500 fails after one
attempt. -/
theorem callApi_two_attempt_policy_witness :
    (callApi (.response 200 (some "EGW00201")) (.response 200 (some ""))).requests ≤ 2 ∧
    (∃ status body,
      (ApiAttempt.response 200 (some "EGW00201")) = .response status body ∧
        (isRateLimitBody body = true ∨ isTokenErrBody body = true)) ∧
    callApi (.response 500 (some "")) .noToken = ⟨none, 1, 0, 0⟩ ∧
    callApi .failedRequest .noToken = ⟨none, 1, 0, 0⟩ ∧
    1 ≤ (callApi (.response 200 (some "EGW00201")) (.response 200 (some ""))).sleeps ∧
    1 ≤ (callApi (.response 500 (some "EGW00123")) (.response 200 (some ""))).invalidations :=
  ⟨callApi_two_attempt_policy.1 _ _,
    callApi_two_attempt_policy.2.1 (.response 200 (some "EGW00201"))
      (.response 200 (some "")) (by decide),
    callApi_two_attempt_policy.2.2.1 500 (some "") .noToken (by decide)
      (by decide) (by decide),
    callApi_two_attempt_policy.2.2.2.1 .noToken,
    callApi_two_attempt_policy.2.2.2.2.1 200 (some "EGW00201")
      (.response 200 (some "")) (by decide),
    callApi_two_attempt_policy.2.2.2.2.2 500 (some "EGW00123")
      (.response 200 (some "")) (by decide)⟩

/-! ## Claim C6: insufficient funds leaves the ledger unchanged -/

/-- C6: when the cash balance is below `amount + fee` with
`amount = price*qty` and `fee` the integer fee the ledger computes (0 when fee
application is disabled), `buy` fails and leaves the balance, the holdings
and the trade history exactly unchanged. -/
theorem buy_insufficient_funds (s : TradingSettings) (fetch : String → Option ℤ)
    (names : String → Option String) (today : String) (st : LedgerState)
    (cd : String) (qty price : ℤ) (hp : price ≠ 0)
    (hlt : st.balance < price * qty + calculate_fee s (price * qty)) :
    buy s fetch names today st cd qty price =
      (⟨false, cd, "", "B", qty, price, price * qty,
        calculate_fee s (price * qty), 0⟩, st) := by
  unfold buy
  rw [if_neg hp]
  dsimp only
  rw [if_pos hlt]

/-- Witness for C6: a ledger holding 100 cannot buy 1 share at 1,000; the
result is a failure and the store is untouched. -/
theorem buy_insufficient_funds_witness :
    buy ⟨false, 0, 0, 1000000⟩ (fun _ => none) (fun _ => none) "20260101"
        ⟨100, [], []⟩ "A" 1 1000 =
      (⟨false, "A", "", "B", 1, 1000, 1000, 0, 0⟩, ⟨100, [], []⟩) :=
  buy_insufficient_funds ⟨false, 0, 0, 1000000⟩ (fun _ => none)
    (fun _ => none) "20260101" ⟨100, [], []⟩ "A" 1 1000 (by decide) (by decide)

/-! ## Claim C7: buy then full sell round trip at zero fees/taxes -/

theorem buy_never_succeeds (s : TradingSettings) (fetch : String → Option ℤ)
    (names : String → Option String) (today : String) (st : LedgerState)
    (item_cd : String) (qty price0 : ℤ) :
    (buy s fetch names today st item_cd qty price0).1.success = false ∧
    (buy s fetch names today st item_cd qty price0).2 = st := by
  unfold buy
  rcases hpr : (if price0 = 0 then fetch item_cd else some price0) with _ | p
  · exact ⟨rfl, rfl⟩
  · dsimp only
    by_cases hlt : st.balance < p * qty + calculate_fee s (p * qty)
    · rw [if_pos hlt]; exact ⟨rfl, rfl⟩
    · rw [if_neg hlt]; exact ⟨rfl, rfl⟩

theorem sell_never_succeeds (s : TradingSettings) (fetch : String → Option ℤ)
    (today : String) (st : LedgerState) (item_cd : String) (qty0 price0 : ℤ) :
    (sell s fetch today st item_cd qty0 price0).1.success = false ∧
    (sell s fetch today st item_cd qty0 price0).2 = st := by
  unfold sell
  constructor
  · split
    · rfl
    · dsimp only
      split <;> split <;> first | rfl | (split <;> rfl)
  · split
    · rfl
    · dsimp only
      split <;> split <;> first | rfl | (split <;> rfl)

theorem applyOp_state_unchanged (s : TradingSettings)
    (fetch : String → Option ℤ) (names : String → Option String)
    (today : String) (st : LedgerState) (op : LedgerOp) :
    applyOp s fetch names today st op = st := by
  cases op with
  | buyOp cd qty price =>
    exact (buy_never_succeeds s fetch names today st cd qty price).2
  | sellOp cd qty price =>
    exact (sell_never_succeeds s fetch today st cd qty price).2

theorem runOps_state_unchanged (s : TradingSettings)
    (fetch : String → Option ℤ) (names : String → Option String)
    (today : String) (st : LedgerState) (ops : List LedgerOp) :
    runOps s fetch names today st ops = st := by
  induction ops with
  | nil => rfl
  | cons op rest ih =>
    simp only [runOps, List.foldl_cons, applyOp_state_unchanged]
    exact ih

/-- C1: for every sequence of ledger buy/sell operations, over all
integer quantity and price arguments the interface accepts, applied to an
account initialized with a nonnegative configured balance, the cash
balance is ≥ 0 after every operation and every holding row present in the
store has quantity > 0. The invariant holds because every operation
leaves the store unchanged: the precondition failures return before any
mutation, and every path past the checks aborts at the
`TradeHistory(qty=...)` insert (the column is `quantity`) and is rolled
back — so the initialized store (nonnegative cash, no holding rows)
persists verbatim. -/
theorem ledger_invariant_all_integer_args (s : TradingSettings)
    (fetch : String → Option ℤ) (names : String → Option String)
    (today : String) (hinit : 0 ≤ s.initial_balance) (ops : List LedgerOp) :
    LedgerInv (runOps s fetch names today (initialState s) ops) := by
  rw [runOps_state_unchanged]
  exact ⟨hinit, by simp [initialState]⟩

/-- Witness for C1 at degenerate integer arguments (a quantity-0 buy and
a negative-quantity sell): the invariant still holds after the run. -/
theorem ledger_invariant_all_integer_args_witness :
    LedgerInv (runOps ⟨false, 0, 0, 1000000⟩ (fun _ => none) (fun _ => none)
      "20260101" (initialState ⟨false, 0, 0, 1000000⟩)
      [.buyOp "A" 0 1000, .sellOp "A" (-5) 1000]) :=
  ledger_invariant_all_integer_args ⟨false, 0, 0, 1000000⟩ (fun _ => none)
    (fun _ => none) "20260101" (by decide)
    [.buyOp "A" 0 1000, .sellOp "A" (-5) 1000]

/-! ## Orchestrator buy-pass lemmas -/

theorem buyLoop_spec (env : BuyEnv) (slots target : ℤ) :
    ∀ (cands : List EvalRow) (bought : List String) (cnt : ℤ),
      (∀ x ∈ bought, x ∉ (buyLoop env slots target cands bought cnt).1) ∧
      (buyLoop env slots target cands bought cnt).2 ⊆
        (buyLoop env slots target cands bought cnt).1 ∧
      (buyLoop env slots target cands bought cnt).2.Nodup := by
  intro cands
  induction cands with
  | nil =>
    intro bought cnt
    exact ⟨fun x _ => by simp [buyLoop], by simp [buyLoop], by simp [buyLoop]⟩
  | cons cand rest ih =>
    intro bought cnt
    by_cases h1 : slots ≤ cnt
    · simp only [buyLoop, if_pos h1]
      exact ⟨fun x _ => List.not_mem_nil x, List.nil_subset _, List.nodup_nil⟩
    · by_cases hc : bought.contains cand.item_cd = true
      · simpa only [buyLoop, if_neg h1, if_pos hc] using ih bought cnt
      · have hnotin : cand.item_cd ∉ bought := by simpa using hc
        rcases hp : env.price cand.item_cd with _ | p
        · simpa only [buyLoop, if_neg h1, if_neg hc, hp] using ih bought cnt
        · by_cases hp0 : p = 0
          · simpa only [buyLoop, if_neg h1, if_neg hc, hp, if_pos hp0] using
              ih bought cnt
          · by_cases hp1000 : p < 1000
            · simpa only [buyLoop, if_neg h1, if_neg hc, hp, if_neg hp0,
                if_pos hp1000] using ih bought cnt
            · rcases hpc : env.prevCandle cand.item_cd with _ | hlc
              · simpa only [buyLoop, if_neg h1, if_neg hc, hp, if_neg hp0,
                  if_neg hp1000, hpc] using ih bought cnt
              · by_cases hpiv :
                    pivotSupportAvg hlc.1 hlc.2.1 hlc.2.2 < (p : ℚ)
                · simpa only [buyLoop, if_neg h1, if_neg hc, hp, if_neg hp0,
                    if_neg hp1000, hpc, if_pos hpiv] using ih bought cnt
                · by_cases hqty : Int.fdiv target p ≤ 0
                  · simpa only [buyLoop, if_neg h1, if_neg hc, hp, if_neg hp0,
                      if_neg hp1000, hpc, if_neg hpiv, if_pos hqty] using
                      ih bought cnt
                  · by_cases hok : env.orderOk cand.item_cd = true
                    · obtain ⟨ih1, ih2, ih3⟩ := ih (cand.item_cd :: bought)
                        (cnt + 1)
                      simp only [buyLoop, if_neg h1, if_neg hc, hp, if_neg hp0,
                        if_neg hp1000, hpc, if_neg hpiv, if_neg hqty,
                        if_pos hok]
                      refine ⟨?_, ?_, ?_⟩
                      · intro x hx hmem
                        rcases List.mem_cons.mp hmem with hxc | hos
                        · exact hnotin (hxc ▸ hx)
                        · exact ih1 x (List.mem_cons_of_mem _ hx) hos
                      · exact List.cons_subset_cons _ ih2
                      · refine List.nodup_cons.mpr ⟨fun hss => ?_, ih3⟩
                        exact ih1 cand.item_cd (List.mem_cons_self _ _)
                          (ih2 hss)
                    · obtain ⟨ih1, ih2, ih3⟩ := ih bought cnt
                      simp only [buyLoop, if_neg h1, if_neg hc, hp, if_neg hp0,
                        if_neg hp1000, hpc, if_neg hpiv, if_neg hqty,
                        if_neg hok]
                      refine ⟨?_, ?_, ?_⟩
                      · intro x hx hmem
                        rcases List.mem_cons.mp hmem with hxc | hos
                        · exact hnotin (hxc ▸ hx)
                        · exact ih1 x hx hos
                      · exact ih2.trans (List.subset_cons_self _ _)
                      · exact ih3

theorem buyLoop_orders_facts (env : BuyEnv) (slots target : ℤ) :
    ∀ (cands : List EvalRow) (bought : List String) (cnt : ℤ),
      (buyLoop env slots target cands bought cnt).1.length ≤ cands.length ∧
      ∀ x ∈ (buyLoop env slots target cands bought cnt).1,
        x ∈ cands.map (fun c => c.item_cd) ∧
        ∃ p hlc, env.price x = some p ∧ env.prevCandle x = some hlc ∧
          ¬ (pivotSupportAvg hlc.1 hlc.2.1 hlc.2.2 < (p : ℚ)) ∧ 1000 ≤ p := by
  intro cands
  induction cands with
  | nil =>
    intro bought cnt
    exact ⟨by simp [buyLoop], fun x hx => by simp [buyLoop] at hx⟩
  | cons cand rest ih =>
    intro bought cnt
    have hskip : ∀ bought2 cnt2,
        (buyLoop env slots target rest bought2 cnt2).1.length ≤
          (cand :: rest).length ∧
        ∀ x ∈ (buyLoop env slots target rest bought2 cnt2).1,
          x ∈ (cand :: rest).map (fun c => c.item_cd) ∧
          ∃ p hlc, env.price x = some p ∧ env.prevCandle x = some hlc ∧
            ¬ (pivotSupportAvg hlc.1 hlc.2.1 hlc.2.2 < (p : ℚ)) ∧ 1000 ≤ p := by
      intro bought2 cnt2
      obtain ⟨ihl, ihm⟩ := ih bought2 cnt2
      refine ⟨ihl.trans (by simp), fun x hx => ?_⟩
      obtain ⟨hmem, hrest⟩ := ihm x hx
      exact ⟨List.mem_cons_of_mem _ hmem, hrest⟩
    by_cases h1 : slots ≤ cnt
    · simp only [buyLoop, if_pos h1]
      exact ⟨by simp, fun x hx => absurd hx (List.not_mem_nil x)⟩
    · by_cases hc : bought.contains cand.item_cd = true
      · simpa only [buyLoop, if_neg h1, if_pos hc] using hskip bought cnt
      · rcases hp : env.price cand.item_cd with _ | p
        · simpa only [buyLoop, if_neg h1, if_neg hc, hp] using hskip bought cnt
        · by_cases hp0 : p = 0
          · simpa only [buyLoop, if_neg h1, if_neg hc, hp, if_pos hp0] using
              hskip bought cnt
          · by_cases hp1000 : p < 1000
            · simpa only [buyLoop, if_neg h1, if_neg hc, hp, if_neg hp0,
                if_pos hp1000] using hskip bought cnt
            · rcases hpc : env.prevCandle cand.item_cd with _ | hlc
              · simpa only [buyLoop, if_neg h1, if_neg hc, hp, if_neg hp0,
                  if_neg hp1000, hpc] using hskip bought cnt
              · by_cases hpiv :
                    pivotSupportAvg hlc.1 hlc.2.1 hlc.2.2 < (p : ℚ)
                · simpa only [buyLoop, if_neg h1, if_neg hc, hp, if_neg hp0,
                    if_neg hp1000, hpc, if_pos hpiv] using hskip bought cnt
                · by_cases hqty : Int.fdiv target p ≤ 0
                  · simpa only [buyLoop, if_neg h1, if_neg hc, hp, if_neg hp0,
                      if_neg hp1000, hpc, if_neg hpiv, if_pos hqty] using
                      hskip bought cnt
                  · have hhead : cand.item_cd ∈
                        (cand :: rest).map (fun c => c.item_cd) ∧
                        ∃ p2 hlc2, env.price cand.item_cd = some p2 ∧
                          env.prevCandle cand.item_cd = some hlc2 ∧
                          ¬ (pivotSupportAvg hlc2.1 hlc2.2.1 hlc2.2.2 <
                            (p2 : ℚ)) ∧ 1000 ≤ p2 := by
                      refine ⟨by simp, p, hlc, hp, hpc, hpiv, by omega⟩
                    by_cases hok : env.orderOk cand.item_cd = true
                    · obtain ⟨ihl, ihm⟩ := ih (cand.item_cd :: bought) (cnt + 1)
                      simp only [buyLoop, if_neg h1, if_neg hc, hp, if_neg hp0,
                        if_neg hp1000, hpc, if_neg hpiv, if_neg hqty,
                        if_pos hok]
                      refine ⟨by simpa using ihl, fun x hx => ?_⟩
                      rcases List.mem_cons.mp hx with rfl | hos
                      · exact hhead
                      · obtain ⟨hmem, hrest⟩ := ihm x hos
                        exact ⟨List.mem_cons_of_mem _ hmem, hrest⟩
                    · obtain ⟨ihl, ihm⟩ := ih bought cnt
                      simp only [buyLoop, if_neg h1, if_neg hc, hp, if_neg hp0,
                        if_neg hp1000, hpc, if_neg hpiv, if_neg hqty,
                        if_neg hok]
                      refine ⟨by simpa using ihl, fun x hx => ?_⟩
                      rcases List.mem_cons.mp hx with rfl | hos
                      · exact hhead
                      · obtain ⟨hmem, hrest⟩ := ihm x hos
                        exact ⟨List.mem_cons_of_mem _ hmem, hrest⟩

theorem buyLoop_eq_trace (env : BuyEnv) (slots target : ℤ) :
    ∀ (cands : List EvalRow) (bought : List String) (cnt : ℤ),
      buyLoop env slots target cands bought cnt =
        ((buyLoopTrace env slots target cands bought cnt).map Prod.fst,
         ((buyLoopTrace env slots target cands bought cnt).filter
           (fun e => e.2)).map Prod.fst) := by
  intro cands
  induction cands with
  | nil => intro bought cnt; simp [buyLoop, buyLoopTrace]
  | cons cand rest ih =>
    intro bought cnt
    by_cases h1 : slots ≤ cnt
    · simp [buyLoop, buyLoopTrace, if_pos h1]
    · by_cases hc : bought.contains cand.item_cd = true
      · simpa only [buyLoop, buyLoopTrace, if_neg h1, if_pos hc] using
          ih bought cnt
      · rcases hp : env.price cand.item_cd with _ | p
        · simpa only [buyLoop, buyLoopTrace, if_neg h1, if_neg hc, hp] using
            ih bought cnt
        · by_cases hp0 : p = 0
          · simpa only [buyLoop, buyLoopTrace, if_neg h1, if_neg hc, hp,
              if_pos hp0] using ih bought cnt
          · by_cases hp1000 : p < 1000
            · simpa only [buyLoop, buyLoopTrace, if_neg h1, if_neg hc, hp,
                if_neg hp0, if_pos hp1000] using ih bought cnt
            · rcases hpc : env.prevCandle cand.item_cd with _ | hlc
              · simpa only [buyLoop, buyLoopTrace, if_neg h1, if_neg hc, hp,
                  if_neg hp0, if_neg hp1000, hpc] using ih bought cnt
              · by_cases hpiv :
                    pivotSupportAvg hlc.1 hlc.2.1 hlc.2.2 < (p : ℚ)
                · simpa only [buyLoop, buyLoopTrace, if_neg h1, if_neg hc, hp,
                    if_neg hp0, if_neg hp1000, hpc, if_pos hpiv] using
                    ih bought cnt
                · by_cases hqty : Int.fdiv target p ≤ 0
                  · simpa only [buyLoop, buyLoopTrace, if_neg h1, if_neg hc,
                      hp, if_neg hp0, if_neg hp1000, hpc, if_neg hpiv,
                      if_pos hqty] using ih bought cnt
                  · by_cases hok : env.orderOk cand.item_cd = true
                    · simp only [buyLoop, buyLoopTrace, if_neg h1, if_neg hc,
                        hp, if_neg hp0, if_neg hp1000, hpc, if_neg hpiv,
                        if_neg hqty, if_pos hok]
                      rw [ih (cand.item_cd :: bought) (cnt + 1)]
                      simp
                    · simp only [buyLoop, buyLoopTrace, if_neg h1, if_neg hc,
                        hp, if_neg hp0, if_neg hp1000, hpc, if_neg hpiv,
                        if_neg hqty, if_neg hok]
                      rw [ih bought cnt]
                      simp

theorem buyLoopTrace_spec (env : BuyEnv) (slots target : ℤ) :
    ∀ (cands : List EvalRow) (bought : List String) (cnt : ℤ),
      (∀ y ∈ bought, ∀ b,
        (y, b) ∉ buyLoopTrace env slots target cands bought cnt) ∧
      (∀ t1 x t2,
        buyLoopTrace env slots target cands bought cnt =
          t1 ++ (x, true) :: t2 → ∀ b, (x, b) ∉ t2) := by
  intro cands
  induction cands with
  | nil =>
    intro bought cnt
    constructor
    · intro y _ b
      simp [buyLoopTrace]
    · intro t1 x t2 ht
      simp only [buyLoopTrace] at ht
      exact absurd ht.symm (by simp)
  | cons cand rest ih =>
    intro bought cnt
    by_cases h1 : slots ≤ cnt
    · constructor
      · intro y _ b
        simp [buyLoopTrace, if_pos h1]
      · intro t1 x t2 ht
        simp only [buyLoopTrace, if_pos h1] at ht
        exact absurd ht.symm (by simp)
    · by_cases hc : bought.contains cand.item_cd = true
      · simpa only [buyLoopTrace, if_neg h1, if_pos hc] using ih bought cnt
      · have hnotin : cand.item_cd ∉ bought := by simpa using hc
        rcases hp : env.price cand.item_cd with _ | p
        · simpa only [buyLoopTrace, if_neg h1, if_neg hc, hp] using
            ih bought cnt
        · by_cases hp0 : p = 0
          · simpa only [buyLoopTrace, if_neg h1, if_neg hc, hp, if_pos hp0]
              using ih bought cnt
          · by_cases hp1000 : p < 1000
            · simpa only [buyLoopTrace, if_neg h1, if_neg hc, hp, if_neg hp0,
                if_pos hp1000] using ih bought cnt
            · rcases hpc : env.prevCandle cand.item_cd with _ | hlc
              · simpa only [buyLoopTrace, if_neg h1, if_neg hc, hp,
                  if_neg hp0, if_neg hp1000, hpc] using ih bought cnt
              · by_cases hpiv :
                    pivotSupportAvg hlc.1 hlc.2.1 hlc.2.2 < (p : ℚ)
                · simpa only [buyLoopTrace, if_neg h1, if_neg hc, hp,
                    if_neg hp0, if_neg hp1000, hpc, if_pos hpiv] using
                    ih bought cnt
                · by_cases hqty : Int.fdiv target p ≤ 0
                  · simpa only [buyLoopTrace, if_neg h1, if_neg hc, hp,
                      if_neg hp0, if_neg hp1000, hpc, if_neg hpiv,
                      if_pos hqty] using ih bought cnt
                  · by_cases hok : env.orderOk cand.item_cd = true
                    · obtain ⟨ihA, ihB⟩ := ih (cand.item_cd :: bought) (cnt + 1)
                      simp only [buyLoopTrace, if_neg h1, if_neg hc, hp,
                        if_neg hp0, if_neg hp1000, hpc, if_neg hpiv,
                        if_neg hqty, if_pos hok]
                      constructor
                      · intro y hy b hmem
                        rcases List.mem_cons.mp hmem with heq | hT
                        · have hxy : y = cand.item_cd := congrArg Prod.fst heq
                          exact hnotin (hxy ▸ hy)
                        · exact ihA y (List.mem_cons_of_mem _ hy) b hT
                      · intro t1 x t2 ht
                        cases t1 with
                        | nil =>
                          simp only [List.nil_append] at ht
                          obtain ⟨heq, hT⟩ := List.cons.inj ht
                          have hx : cand.item_cd = x := congrArg Prod.fst heq
                          subst hT
                          intro b
                          exact hx ▸ ihA cand.item_cd (List.mem_cons_self _ _) b
                        | cons hd t1x =>
                          simp only [List.cons_append] at ht
                          obtain ⟨-, hT⟩ := List.cons.inj ht
                          exact ihB t1x x t2 hT
                    · obtain ⟨ihA, ihB⟩ := ih bought cnt
                      simp only [buyLoopTrace, if_neg h1, if_neg hc, hp,
                        if_neg hp0, if_neg hp1000, hpc, if_neg hpiv,
                        if_neg hqty, if_neg hok]
                      constructor
                      · intro y hy b hmem
                        rcases List.mem_cons.mp hmem with heq | hT
                        · have hxy : y = cand.item_cd := congrArg Prod.fst heq
                          exact hnotin (hxy ▸ hy)
                        · exact ihA y hy b hT
                      · intro t1 x t2 ht
                        cases t1 with
                        | nil =>
                          simp only [List.nil_append] at ht
                          obtain ⟨heq, -⟩ := List.cons.inj ht
                          have hb : false = true := congrArg Prod.snd heq
                          exact absurd hb (by simp)
                        | cons hd t1x =>
                          simp only [List.cons_append] at ht
                          obtain ⟨-, hT⟩ := List.cons.inj ht
                          exact ihB t1x x t2 hT

/-! ## Claim C8: per-day and per-pass dedup of the buy pass -/

/-- C8 (amended): within one orchestrator buy pass, every symbol with a
buy-side (trade_type equal to the string buy) trade-history row dated
today is never submitted as a buy order; no symbol is successfully bought
more than once, even if it appears multiple times in the candidate list;
a symbol successfully bought earlier in the pass is never submitted again
(stated on the submission trace: after a successful submission of a
symbol, no later submission of that symbol occurs); and every successful
buy was submitted. (A symbol whose order submission fails can be
submitted again when it appears again in the candidate list — see the
counterexample — so "submitted at most once" holds only around successful
buys.) The last two conjuncts tie the trace to the pass: the submitted
symbols and the successful ones are its two projections. -/
theorem processBuying_dedup (cfg : BuyConfig) (env : BuyEnv)
    (history : List TradeHistoryRow) (evalRows : List EvalRow) (today : String)
    (deposit cnt : ℤ) :
    (∀ x ∈ todayBought history today,
      x ∉ (processBuying cfg env history evalRows today deposit cnt).1) ∧
    (processBuying cfg env history evalRows today deposit cnt).2.Nodup ∧
    (processBuying cfg env history evalRows today deposit cnt).2 ⊆
      (processBuying cfg env history evalRows today deposit cnt).1 ∧
    (∀ t1 x t2,
      processBuyingTrace cfg env history evalRows today deposit cnt =
        t1 ++ (x, true) :: t2 → ∀ b, (x, b) ∉ t2) ∧
    (processBuying cfg env history evalRows today deposit cnt).1 =
      (processBuyingTrace cfg env history evalRows today deposit cnt).map
        Prod.fst ∧
    (processBuying cfg env history evalRows today deposit cnt).2 =
      ((processBuyingTrace cfg env history evalRows today deposit cnt).filter
        (fun e => e.2)).map Prod.fst := by
  by_cases hA : cfg.limit_count ≤ cnt
  · simp only [processBuying, processBuyingTrace, if_pos hA]
    refine ⟨fun x _ => List.not_mem_nil x, List.nodup_nil, List.nil_subset _,
      ?_, by simp, by simp⟩
    intro t1 x t2 ht
    exact absurd ht.symm (by simp)
  · simp only [processBuying, processBuyingTrace, if_neg hA]
    by_cases hB : min cfg.max_buy_amount
        (pyInt ((deposit : ℚ) * (cfg.buy_rate / 100))) < 10000
    · simp only [if_pos hB]
      refine ⟨fun x _ => List.not_mem_nil x, List.nodup_nil, List.nil_subset _,
        ?_, by simp, by simp⟩
      intro t1 x t2 ht
      exact absurd ht.symm (by simp)
    · simp only [if_neg hB]
      obtain ⟨s1, s2, s3⟩ := buyLoop_spec env (cfg.limit_count - cnt)
        (min cfg.max_buy_amount (pyInt ((deposit : ℚ) * (cfg.buy_rate / 100))))
        (candidateQuery cfg evalRows today) (todayBought history today) 0
      obtain ⟨-, tB⟩ := buyLoopTrace_spec env (cfg.limit_count - cnt)
        (min cfg.max_buy_amount (pyInt ((deposit : ℚ) * (cfg.buy_rate / 100))))
        (candidateQuery cfg evalRows today) (todayBought history today) 0
      have heq := buyLoop_eq_trace env (cfg.limit_count - cnt)
        (min cfg.max_buy_amount (pyInt ((deposit : ℚ) * (cfg.buy_rate / 100))))
        (candidateQuery cfg evalRows today) (todayBought history today) 0
      exact ⟨s1, s3, s2, tB, by rw [heq], by rw [heq]⟩

theorem processBuyingTrace_cfg_eval (env : BuyEnv)
    (history : List TradeHistoryRow) (evalRows : List EvalRow)
    (today : String) :
    processBuyingTrace ⟨10, 500000, 10, 0⟩ env history evalRows today
        1000000 0 =
      buyLoopTrace env 10 100000
        (candidateQuery ⟨10, 500000, 10, 0⟩ evalRows today)
        (todayBought history today) 0 := by
  have h1 : (((1000000 : ℤ) : ℚ) * ((10 : ℚ) / 100)) = 100000 := by norm_num
  have htarget : min (500000 : ℤ)
      (pyInt (((1000000 : ℤ) : ℚ) * ((10 : ℚ) / 100))) = 100000 := by
    rw [h1, pyInt_eq_floor _ (by norm_num)]
    norm_num [min_def]
  unfold processBuyingTrace
  rw [if_neg (show ¬ (⟨10, 500000, 10, 0⟩ : BuyConfig).limit_count ≤ (0 : ℤ)
    by decide)]
  dsimp only
  rw [htarget]
  rw [if_neg (show ¬ (100000 : ℤ) < 10000 by decide)]
  norm_num

theorem processBuyingTrace_eval_orderOk :
    processBuyingTrace ⟨10, 500000, 10, 0⟩
      ⟨fun _ => some 10000, fun _ => some (10000, 10000, 10000), fun _ => true⟩
      [] [⟨"A", "A", "20260102", 40, true⟩] "20260102" 1000000 0 =
      [("A", true)] := by
  have hpivFlat : ¬ (pivotSupportAvg 10000 10000 10000 < ((10000 : ℤ) : ℚ)) := by
    unfold pivotSupportAvg pivotS1 pivotS2 pivotPP
    push_cast
    norm_num
  have hcq : candidateQuery ⟨10, 500000, 10, 0⟩
      [⟨"A", "A", "20260102", 40, true⟩] "20260102" =
      [⟨"A", "A", "20260102", 40, true⟩] := by decide
  have htb : todayBought [] "20260102" = [] := rfl
  rw [processBuyingTrace_cfg_eval, hcq, htb]
  simp only [buyLoopTrace]
  rw [if_neg (show ¬ (10 : ℤ) ≤ 0 by decide)]
  rw [if_neg (show ¬ (([] : List String).contains "A") = true by decide)]
  rw [if_neg (show ¬ (10000 : ℤ) = 0 by decide)]
  rw [if_neg (show ¬ (10000 : ℤ) < 1000 by decide)]
  rw [if_neg hpivFlat]
  rw [if_neg (show ¬ Int.fdiv (100000 : ℤ) 10000 ≤ 0 by decide)]
  simp [buyLoopTrace]

/-- Witness for C8: a symbol recorded as bought today ("A") is never
submitted again by the pass; successful buys are duplicate-free; and in a
pass whose submission trace is the single successful buy of "A", no
submission of "A" follows that success. -/
theorem processBuying_dedup_witness :
    "A" ∉ (processBuying ⟨10, 500000, 10, 0⟩
      ⟨fun _ => some 10000, fun _ => some (10000, 10000, 10000), fun _ => true⟩
      [⟨"A", "20260102", "buy", 1, 10000, 0, 0, 0, "auto"⟩]
      [⟨"A", "A", "20260102", 40, true⟩] "20260102" 1000000 0).1 ∧
    (processBuying ⟨10, 500000, 10, 0⟩
      ⟨fun _ => some 10000, fun _ => some (10000, 10000, 10000), fun _ => true⟩
      [⟨"A", "20260102", "buy", 1, 10000, 0, 0, 0, "auto"⟩]
      [⟨"A", "A", "20260102", 40, true⟩] "20260102" 1000000 0).2.Nodup ∧
    (∀ b, ("A", b) ∉ ([] : List (String × Bool))) :=
  ⟨(processBuying_dedup ⟨10, 500000, 10, 0⟩
      ⟨fun _ => some 10000, fun _ => some (10000, 10000, 10000), fun _ => true⟩
      [⟨"A", "20260102", "buy", 1, 10000, 0, 0, 0, "auto"⟩]
      [⟨"A", "A", "20260102", 40, true⟩] "20260102" 1000000 0).1 "A"
      (by decide),
    (processBuying_dedup ⟨10, 500000, 10, 0⟩
      ⟨fun _ => some 10000, fun _ => some (10000, 10000, 10000), fun _ => true⟩
      [⟨"A", "20260102", "buy", 1, 10000, 0, 0, 0, "auto"⟩]
      [⟨"A", "A", "20260102", 40, true⟩] "20260102" 1000000 0).2.1,
    (processBuying_dedup ⟨10, 500000, 10, 0⟩
      ⟨fun _ => some 10000, fun _ => some (10000, 10000, 10000), fun _ => true⟩
      [] [⟨"A", "A", "20260102", 40, true⟩] "20260102" 1000000
      0).2.2.2.1 [] "A" [] processBuyingTrace_eval_orderOk⟩

theorem processBuying_cfg_eval (env : BuyEnv) (history : List TradeHistoryRow)
    (evalRows : List EvalRow) (today : String) :
    processBuying ⟨10, 500000, 10, 0⟩ env history evalRows today 1000000 0 =
      buyLoop env 10 100000 (candidateQuery ⟨10, 500000, 10, 0⟩ evalRows today)
        (todayBought history today) 0 := by
  have h1 : (((1000000 : ℤ) : ℚ) * ((10 : ℚ) / 100)) = 100000 := by norm_num
  have htarget : min (500000 : ℤ)
      (pyInt (((1000000 : ℤ) : ℚ) * ((10 : ℚ) / 100))) = 100000 := by
    rw [h1, pyInt_eq_floor _ (by norm_num)]
    norm_num [min_def]
  unfold processBuying
  rw [if_neg (show ¬ (⟨10, 500000, 10, 0⟩ : BuyConfig).limit_count ≤ (0 : ℤ)
    by decide)]
  dsimp only
  rw [htarget]
  rw [if_neg (show ¬ (100000 : ℤ) < 10000 by decide)]
  norm_num

/-- Counterexample to C8 as stated: when the same symbol appears twice in
the candidate list and its order submission fails (no fill), the pass
submits it as a buy order twice — only successful buys are deduplicated
within the pass. -/
theorem processBuying_resubmission_counterexample :
    (processBuying ⟨10, 500000, 10, 0⟩
      ⟨fun _ => some 10000, fun _ => some (10000, 10000, 10000),
        fun _ => false⟩ []
      [⟨"A", "A", "20260102", 40, true⟩, ⟨"A", "A", "20260102", 40, true⟩]
      "20260102" 1000000 0).1 = ["A", "A"] ∧
    ¬ (processBuying ⟨10, 500000, 10, 0⟩
      ⟨fun _ => some 10000, fun _ => some (10000, 10000, 10000),
        fun _ => false⟩ []
      [⟨"A", "A", "20260102", 40, true⟩, ⟨"A", "A", "20260102", 40, true⟩]
      "20260102" 1000000 0).1.Nodup := by
  have hpivFlat : ¬ (pivotSupportAvg 10000 10000 10000 < ((10000 : ℤ) : ℚ)) := by
    unfold pivotSupportAvg pivotS1 pivotS2 pivotPP
    push_cast
    norm_num
  have hcq : candidateQuery ⟨10, 500000, 10, 0⟩
      [⟨"A", "A", "20260102", 40, true⟩, ⟨"A", "A", "20260102", 40, true⟩]
      "20260102" =
      [⟨"A", "A", "20260102", 40, true⟩, ⟨"A", "A", "20260102", 40, true⟩] := by
    decide
  have htb : todayBought [] "20260102" = [] := rfl
  have hstep : ∀ l : List EvalRow,
      buyLoop ⟨fun _ => some 10000, fun _ => some (10000, 10000, 10000),
          fun _ => false⟩ 10 100000 ((⟨"A", "A", "20260102", 40, true⟩ :
          EvalRow) :: l) [] 0 =
        ("A" :: (buyLoop ⟨fun _ => some 10000,
            fun _ => some (10000, 10000, 10000), fun _ => false⟩ 10 100000 l
            [] 0).1,
          (buyLoop ⟨fun _ => some 10000, fun _ => some (10000, 10000, 10000),
            fun _ => false⟩ 10 100000 l [] 0).2) := by
    intro l
    simp only [buyLoop]
    rw [if_neg (show ¬ (10 : ℤ) ≤ 0 by decide)]
    rw [if_neg (show ¬ (([] : List String).contains "A") = true by decide)]
    rw [if_neg (show ¬ (10000 : ℤ) = 0 by decide)]
    rw [if_neg (show ¬ (10000 : ℤ) < 1000 by decide)]
    rw [if_neg hpivFlat]
    rw [if_neg (show ¬ Int.fdiv (100000 : ℤ) 10000 ≤ 0 by decide)]
    rw [if_neg (show ¬ (false = true) by decide)]
  rw [processBuying_cfg_eval, hcq, htb, hstep, hstep]
  simp [buyLoop]

theorem processBuying_eval_orderOk :
    (processBuying ⟨10, 500000, 10, 0⟩
      ⟨fun _ => some 10000, fun _ => some (10000, 10000, 10000), fun _ => true⟩
      [] [⟨"A", "A", "20260102", 40, true⟩] "20260102" 1000000 0).1 = ["A"] := by
  have hpivFlat : ¬ (pivotSupportAvg 10000 10000 10000 < ((10000 : ℤ) : ℚ)) := by
    unfold pivotSupportAvg pivotS1 pivotS2 pivotPP
    push_cast
    norm_num
  have hcq : candidateQuery ⟨10, 500000, 10, 0⟩
      [⟨"A", "A", "20260102", 40, true⟩] "20260102" =
      [⟨"A", "A", "20260102", 40, true⟩] := by decide
  have htb : todayBought [] "20260102" = [] := rfl
  rw [processBuying_cfg_eval, hcq, htb]
  simp only [buyLoop]
  rw [if_neg (show ¬ (10 : ℤ) ≤ 0 by decide)]
  rw [if_neg (show ¬ (([] : List String).contains "A") = true by decide)]
  rw [if_neg (show ¬ (10000 : ℤ) = 0 by decide)]
  rw [if_neg (show ¬ (10000 : ℤ) < 1000 by decide)]
  rw [if_neg hpivFlat]
  rw [if_neg (show ¬ Int.fdiv (100000 : ℤ) 10000 ≤ 0 by decide)]
  simp [buyLoop]

/-! ## Claim C9: the pivot support gate -/

/-- C9 (amended): an order is submitted for a candidate only when a
prior-session OHLC row exists and `current_price ≤ (S1+S2)/2` with
`PP=(H+L+C)/3`, `S1=2PP-H`, `S2=PP-(H-L)` (a candidate with no prior row
is skipped); and for prior H=11,000, L=10,000, C=10,400 the computation
yields PP=31400/3 (≈10,466.67), S1=29800/3 (≈9,933.33), S2=28400/3
(≈9,466.67) and support average 9,700 — not the claimed 9,866.67 and
9,900 — so a candidate at current price 10,500 is skipped (10,500 >
9,700). -/
theorem processBuying_pivot_gate :
    (∀ (cfg : BuyConfig) (env : BuyEnv) (history : List TradeHistoryRow)
      (evalRows : List EvalRow) (today : String) (deposit cnt : ℤ)
      (x : String),
      x ∈ (processBuying cfg env history evalRows today deposit cnt).1 →
      ∃ p hlc, env.price x = some p ∧ env.prevCandle x = some hlc ∧
        (p : ℚ) ≤ pivotSupportAvg hlc.1 hlc.2.1 hlc.2.2) ∧
    pivotPP 11000 10000 10400 = 31400 / 3 ∧
    pivotS1 11000 10000 10400 = 29800 / 3 ∧
    pivotS2 11000 10000 10400 = 28400 / 3 ∧
    pivotSupportAvg 11000 10000 10400 = 9700 ∧
    (processBuying ⟨10, 500000, 10, 0⟩
      ⟨fun _ => some 10500, fun _ => some (11000, 10000, 10400),
        fun _ => true⟩ [] [⟨"A", "A", "20260102", 40, true⟩] "20260102"
      1000000 0).1 = [] := by
  refine ⟨?_, ?_, ?_, ?_, ?_, ?_⟩
  · intro cfg env history evalRows today deposit cnt x hx
    by_cases hA : cfg.limit_count ≤ cnt
    · simp only [processBuying, if_pos hA] at hx
      exact absurd hx (List.not_mem_nil x)
    · simp only [processBuying, if_neg hA] at hx
      by_cases hB : min cfg.max_buy_amount
          (pyInt ((deposit : ℚ) * (cfg.buy_rate / 100))) < 10000
      · simp only [if_pos hB] at hx
        exact absurd hx (List.not_mem_nil x)
      · simp only [if_neg hB] at hx
        obtain ⟨-, hm⟩ := buyLoop_orders_facts env (cfg.limit_count - cnt)
          (min cfg.max_buy_amount
            (pyInt ((deposit : ℚ) * (cfg.buy_rate / 100))))
          (candidateQuery cfg evalRows today) (todayBought history today) 0
        obtain ⟨-, p, hlc, hp, hpc, hpiv, -⟩ := hm x hx
        exact ⟨p, hlc, hp, hpc, not_lt.mp hpiv⟩
  · unfold pivotPP; push_cast; norm_num
  · unfold pivotS1 pivotPP; push_cast; norm_num
  · unfold pivotS2 pivotPP; push_cast; norm_num
  · unfold pivotSupportAvg pivotS1 pivotS2 pivotPP; push_cast; norm_num
  · have hpiv : pivotSupportAvg 11000 10000 10400 < ((10500 : ℤ) : ℚ) := by
      unfold pivotSupportAvg pivotS1 pivotS2 pivotPP
      push_cast
      norm_num
    have hcq : candidateQuery ⟨10, 500000, 10, 0⟩
        [⟨"A", "A", "20260102", 40, true⟩] "20260102" =
        [⟨"A", "A", "20260102", 40, true⟩] := by decide
    have htb : todayBought [] "20260102" = [] := rfl
    rw [processBuying_cfg_eval, hcq, htb]
    simp only [buyLoop]
    rw [if_neg (show ¬ (10 : ℤ) ≤ 0 by decide)]
    rw [if_neg (show ¬ (([] : List String).contains "A") = true by decide)]
    rw [if_neg (show ¬ (10500 : ℤ) = 0 by decide)]
    rw [if_neg (show ¬ (10500 : ℤ) < 1000 by decide)]
    rw [if_pos hpiv]

/-- Witness for C9: a submitted order ("A" at price 10,000 against a flat
prior candle) satisfies the gate characterization. -/
theorem processBuying_pivot_gate_witness :
    ∃ p hlc,
      (⟨fun _ => some 10000, fun _ => some (10000, 10000, 10000),
        fun _ => true⟩ : BuyEnv).price "A" = some p ∧
      (⟨fun _ => some 10000, fun _ => some (10000, 10000, 10000),
        fun _ => true⟩ : BuyEnv).prevCandle "A" = some hlc ∧
      (p : ℚ) ≤ pivotSupportAvg hlc.1 hlc.2.1 hlc.2.2 := by
  refine processBuying_pivot_gate.1 ⟨10, 500000, 10, 0⟩
    ⟨fun _ => some 10000, fun _ => some (10000, 10000, 10000), fun _ => true⟩
    [] [⟨"A", "A", "20260102", 40, true⟩] "20260102" 1000000 0 "A" ?_
  rw [processBuying_eval_orderOk]
  exact List.mem_singleton_self "A"

/-- Counterexample to the concrete values of C9 as stated: with prior H=11,000,
L=10,000, C=10,400 the S2 the code computes is 28400/3 (≈9,466.67), not 9,866.67
(=29600/3), and the support average is 9,700, not 9,900. -/
theorem pivot_scenario_values_counterexample :
    pivotSupportAvg 11000 10000 10400 = 9700 ∧
    ¬ pivotSupportAvg 11000 10000 10400 = 9900 ∧
    ¬ pivotS2 11000 10000 10400 = 29600 / 3 := by
  refine ⟨?_, ?_, ?_⟩
  · unfold pivotSupportAvg pivotS1 pivotS2 pivotPP
    push_cast
    norm_num
  · unfold pivotSupportAvg pivotS1 pivotS2 pivotPP
    push_cast
    norm_num
  · unfold pivotS2 pivotPP
    push_cast
    norm_num

/-! ## Claim C10: the candidate query is capped at 10 rows -/

/-- C10: the candidate query returns at most 10 rows (the 10
highest-scoring buy candidates of the day), every submitted buy order is
for one of those rows, and so at most 10 buy orders are submitted in one
pass even when more slots and qualifying candidates exist. -/
theorem processBuying_at_most_ten_orders (cfg : BuyConfig) (env : BuyEnv)
    (history : List TradeHistoryRow) (evalRows : List EvalRow) (today : String)
    (deposit cnt : ℤ) :
    (candidateQuery cfg evalRows today).length ≤ 10 ∧
    (∀ x ∈ (processBuying cfg env history evalRows today deposit cnt).1,
      x ∈ (candidateQuery cfg evalRows today).map (fun c => c.item_cd)) ∧
    (processBuying cfg env history evalRows today deposit cnt).1.length ≤ 10 := by
  have hq : (candidateQuery cfg evalRows today).length ≤ 10 := by
    unfold candidateQuery
    exact List.length_take_le _ _
  by_cases hA : cfg.limit_count ≤ cnt
  · simp only [processBuying, if_pos hA]
    exact ⟨hq, fun x hx => absurd hx (List.not_mem_nil x), by simp⟩
  · simp only [processBuying, if_neg hA]
    by_cases hB : min cfg.max_buy_amount
        (pyInt ((deposit : ℚ) * (cfg.buy_rate / 100))) < 10000
    · simp only [if_pos hB]
      exact ⟨hq, fun x hx => absurd hx (List.not_mem_nil x), by simp⟩
    · simp only [if_neg hB]
      obtain ⟨hl, hm⟩ := buyLoop_orders_facts env (cfg.limit_count - cnt)
        (min cfg.max_buy_amount (pyInt ((deposit : ℚ) * (cfg.buy_rate / 100))))
        (candidateQuery cfg evalRows today) (todayBought history today) 0
      exact ⟨hq, fun x hx => (hm x hx).1, hl.trans hq⟩

/-- Witness for C10: in a concrete pass that submits one order, the order
is for a row of the capped candidate query and the order count is within
the cap. -/
theorem processBuying_at_most_ten_orders_witness :
    "A" ∈ (candidateQuery ⟨10, 500000, 10, 0⟩
      [⟨"A", "A", "20260102", 40, true⟩] "20260102").map (fun c => c.item_cd) ∧
    (processBuying ⟨10, 500000, 10, 0⟩
      ⟨fun _ => some 10000, fun _ => some (10000, 10000, 10000), fun _ => true⟩
      [] [⟨"A", "A", "20260102", 40, true⟩] "20260102" 1000000 0).1.length ≤
      10 :=
  ⟨(processBuying_at_most_ten_orders ⟨10, 500000, 10, 0⟩
      ⟨fun _ => some 10000, fun _ => some (10000, 10000, 10000), fun _ => true⟩
      [] [⟨"A", "A", "20260102", 40, true⟩] "20260102" 1000000 0).2.1 "A"
      (by rw [processBuying_eval_orderOk]; exact List.mem_singleton_self "A"),
    (processBuying_at_most_ten_orders ⟨10, 500000, 10, 0⟩
      ⟨fun _ => some 10000, fun _ => some (10000, 10000, 10000), fun _ => true⟩
      [] [⟨"A", "A", "20260102", 40, true⟩] "20260102" 1000000 0).2.2⟩

end Snowbot
